import Mathlib

/-!
Verification of the memory-adaptive task delegation and orchestration
subsystem of the excel-pdf-values-validator repository
(`fastapi/app/autonomous_agents/`): a shallow embedding of
`memory_manager.py`, `base_agent.py` and `orchestrator.py`, followed by
theorems settling the specification claims.

Modelling conventions:
  * Python floats holding GiB quantities are modelled as rationals (ℚ);
    megabyte quantities are naturals.
  * The OS memory query (`psutil.virtual_memory()`) is a parameter of type
    `Option VirtualMemory`; `none` models the query raising an exception.
  * The admission ledger (`MemoryManager.active_agents`, a Python dict) is
    an association list, mutated only through the embedded
    `register_agent` / `unregister_agent` / `try_spawn_agent`.
  * The re-entrant lock serializes all ledger operations, so concurrent
    executions are modelled as arbitrary sequential interleavings of the
    critical sections.
  * Celery task execution is modelled by explicit state passing: a task
    runs `before_start`, then its main logic (an abstract outcome whose
    payload is opaque, here a natural number), then `after_return` on
    success or `on_failure` on failure.  The two concurrent extraction
    tasks of the distributed path are serialized; their register /
    unregister brackets commute, so ledger-final-state claims are
    unaffected.
-/

/-- Memory availability tiers (`MemoryThreshold` enum in `memory_manager.py`). -/
inductive MemoryThreshold where
  | HIGH
  | MEDIUM
  | LOW
  | CRITICAL
deriving DecidableEq, Repr

/-- The numeric value attached to each enum member (GiB thresholds). -/
def MemoryThreshold.value : MemoryThreshold → ℚ
  | .HIGH => 6
  | .MEDIUM => 3
  | .LOW => 1
  | .CRITICAL => 1/2

/-- `MemoryStats` dataclass from `memory_manager.py`. -/
structure MemoryStats where
  total_gb : ℚ
  available_gb : ℚ
  used_percent : ℚ
  threshold_level : MemoryThreshold
  can_spawn_agents : Bool
  recommended_agent_count : ℕ
deriving DecidableEq, Repr

/-- `AgentMemoryProfile` dataclass from `memory_manager.py`. -/
structure AgentMemoryProfile where
  base_memory_mb : ℕ
  peak_memory_mb : ℕ
  model_memory_mb : ℕ
  scaling_factor : ℚ
deriving DecidableEq, Repr

/-- `MemoryManager.AGENT_PROFILES`: the static per-agent-type memory
profiles; `none` models a key absent from the Python dict. -/
def AGENT_PROFILES : String → Option AgentMemoryProfile := fun t =>
  if t = "orchestrator" then some ⟨128, 256, 0, 1⟩
  else if t = "pdf_intelligence" then some ⟨256, 512, 1024, 12/10⟩
  else if t = "excel_intelligence" then some ⟨128, 256, 0, 1⟩
  else if t = "validation" then some ⟨256, 512, 512, 11/10⟩
  else if t = "evaluation" then some ⟨64, 128, 0, 8/10⟩
  else if t = "ocr_sub_agent" then some ⟨128, 256, 256, 1⟩
  else if t = "multimodal_sub_agent" then some ⟨512, 1024, 1536, 3/2⟩
  else none

/-- Configuration of a `MemoryManager` instance (`max_memory_gb` and
`safety_margin`, read from the environment in `__init__`). -/
structure ManagerConfig where
  max_memory_gb : ℚ
  safety_margin : ℚ
deriving DecidableEq, Repr

/-- Result of `psutil.virtual_memory()` (bytes, plus the used percentage). -/
structure VirtualMemory where
  total : ℕ
  available : ℕ
  percent : ℚ
deriving DecidableEq, Repr

/-- `MemoryManager._determine_threshold`. -/
def determine_threshold (available_gb : ℚ) : MemoryThreshold :=
  if available_gb ≥ MemoryThreshold.HIGH.value then .HIGH
  else if available_gb ≥ MemoryThreshold.MEDIUM.value then .MEDIUM
  else if available_gb ≥ MemoryThreshold.LOW.value then .LOW
  else .CRITICAL

/-- `MemoryManager._calculate_recommended_agent_count`. -/
def calculate_recommended_agent_count (available_gb : ℚ) : ℕ :=
  if available_gb ≥ 6 then 8
  else if available_gb ≥ 4 then 5
  else if available_gb ≥ 2 then 3
  else if available_gb ≥ 1 then 2
  else 1

/-- One GiB in bytes (`1024**3`). -/
def gib : ℕ := 1024 ^ 3

/-- `MemoryManager.get_current_stats`: on a successful OS query it derives
the stats; when the query raises (`mem = none`) it returns the hard-coded
conservative fallback from the `except` branch. -/
def get_current_stats (cfg : ManagerConfig) (mem : Option VirtualMemory) :
    MemoryStats :=
  match mem with
  | some m =>
    let total_gb : ℚ := (m.total : ℚ) / (gib : ℚ)
    let available_gb : ℚ := (m.available : ℚ) / (gib : ℚ)
    let threshold_level := determine_threshold available_gb
    let usable_memory := cfg.max_memory_gb * (1 - cfg.safety_margin)
    let can_spawn := decide (available_gb > usable_memory * (3/10))
    let recommended_count := calculate_recommended_agent_count available_gb
    { total_gb := total_gb
      available_gb := available_gb
      used_percent := m.percent
      threshold_level := threshold_level
      can_spawn_agents := can_spawn
      recommended_agent_count := recommended_count }
  | none =>
    { total_gb := 8
      available_gb := 2
      used_percent := 75
      threshold_level := .LOW
      can_spawn_agents := false
      recommended_agent_count := 1 }

/-- The admission ledger `MemoryManager.active_agents`
(agent_type → count); mutated only under the re-entrant lock. -/
abbrev Ledger := List (String × ℤ)

/-- Dict lookup on the ledger. -/
def lget : Ledger → String → Option ℤ
  | [], _ => none
  | (k, v) :: rest, t => if k = t then some v else lget rest t

/-- Dict assignment `d[t] = v` (replace the entry or append a new one). -/
def lset : Ledger → String → ℤ → Ledger
  | [], t, v => [(t, v)]
  | (k, w) :: rest, t, v =>
    if k = t then (t, v) :: rest else (k, w) :: lset rest t v

/-- Dict deletion `del d[t]`. -/
def ldel : Ledger → String → Ledger
  | [], _ => []
  | (k, w) :: rest, t => if k = t then rest else (k, w) :: ldel rest t

/-- The ledger keys (agent types currently present). -/
def keys (l : Ledger) : List String := l.map Prod.fst

/-- `sum(self.active_agents.values())`. -/
def ledger_total (l : Ledger) : ℤ := (l.map Prod.snd).sum

/-- The count recorded for a type (zero when absent). -/
def cnt (l : Ledger) (t : String) : ℤ := (lget l t).getD 0

/-- Every entry stored in the ledger is positive. -/
def all_pos (l : Ledger) : Prop := ∀ p ∈ l, 0 < p.2

/-- Well-formedness maintained by the ledger operations: distinct keys
and positive stored counts. -/
def ledger_wf (l : Ledger) : Prop := (keys l).Nodup ∧ all_pos l

/-- `MemoryManager.register_agent`:
`active_agents[t] = active_agents.get(t, 0) + 1`. -/
def register_agent (l : Ledger) (t : String) : Ledger :=
  lset l t ((lget l t).getD 0 + 1)

/-- `MemoryManager.unregister_agent`: decrement when present and
positive, deleting the entry when it reaches zero; otherwise no-op. -/
def unregister_agent (l : Ledger) (t : String) : Ledger :=
  match lget l t with
  | some c => if 0 < c then (if c - 1 = 0 then ldel l t else lset l t (c - 1)) else l
  | none => l

/-- The structured content of the reason string returned by
`can_spawn_agent` (the f-string arguments, by branch). -/
inductive SpawnReason where
  | insufficient_available (available_gb : ℚ)
  | insufficient_need (need_gb have_gb : ℚ)
  | limit_reached (current : ℤ) (limit : ℕ)
  | memory_available
deriving DecidableEq, Repr

/-- Whether a reason is the agent-limit-reached rejection. -/
def SpawnReason.is_limit_reached : SpawnReason → Bool
  | .limit_reached _ _ => true
  | _ => false

/-- The per-type memory cost when no truthy override is supplied:
`peak_memory_mb + model_memory_mb` from the profile, or the 256 MB
default for unknown agent types. -/
def required_default (agent_type : String) : ℕ :=
  match AGENT_PROFILES agent_type with
  | some p => p.peak_memory_mb + p.model_memory_mb
  | none => 256

/-- Resolution of the optional `estimated_memory_mb` override (Python
`if estimated_memory_mb:` — a zero override is falsy). -/
def required_mb (agent_type : String) (estimated_memory_mb : Option ℕ) : ℕ :=
  match estimated_memory_mb with
  | some m => if m ≠ 0 then m else required_default agent_type
  | none => required_default agent_type

/-- `MemoryManager.can_spawn_agent` (body of the critical section;
rejection is a returned value, never an exception). -/
def can_spawn_agent (cfg : ManagerConfig) (mem : Option VirtualMemory)
    (ledger : Ledger) (agent_type : String)
    (estimated_memory_mb : Option ℕ) : Bool × SpawnReason :=
  let stats := get_current_stats cfg mem
  if stats.can_spawn_agents = false then
    (false, .insufficient_available stats.available_gb)
  else
    let required_gb : ℚ := (required_mb agent_type estimated_memory_mb : ℚ) / 1024
    if stats.available_gb < required_gb then
      (false, .insufficient_need required_gb stats.available_gb)
    else
      let current_agent_count := ledger_total ledger
      if current_agent_count ≥ (stats.recommended_agent_count : ℤ) then
        (false, .limit_reached current_agent_count stats.recommended_agent_count)
      else
        (true, .memory_available)

/-- `MemoryManager.try_spawn_agent`: atomic check-and-reserve — on a
positive check the slot is immediately reserved in the ledger. -/
def try_spawn_agent (cfg : ManagerConfig) (mem : Option VirtualMemory)
    (ledger : Ledger) (agent_type : String)
    (estimated_memory_mb : Option ℕ) : (Bool × SpawnReason) × Ledger :=
  let r := can_spawn_agent cfg mem ledger agent_type estimated_memory_mb
  if r.1 then (r, register_agent ledger agent_type) else (r, ledger)

/-- Modelled from the spec's words (§4.2, `try_admit` algorithm): sample
stats; if admission not allowed reject with the insufficient-memory
reason; else if available below required reject with the need/have
reason; else if the ledger total is at or above the ceiling reject with
the limit-reached reason; otherwise increment the ledger entry and
accept.  Used only to compare against the source-derived
`try_spawn_agent`. -/
def try_admit_spec (cfg : ManagerConfig) (mem : Option VirtualMemory)
    (ledger : Ledger) (agent_type : String)
    (estimated_memory_mb : Option ℕ) : (Bool × SpawnReason) × Ledger :=
  let stats := get_current_stats cfg mem
  if stats.can_spawn_agents = false then
    ((false, .insufficient_available stats.available_gb), ledger)
  else if stats.available_gb <
      (required_mb agent_type estimated_memory_mb : ℚ) / 1024 then
    ((false, .insufficient_need
        ((required_mb agent_type estimated_memory_mb : ℚ) / 1024)
        stats.available_gb), ledger)
  else if ledger_total ledger ≥ (stats.recommended_agent_count : ℤ) then
    ((false, .limit_reached (ledger_total ledger)
        stats.recommended_agent_count), ledger)
  else
    ((true, .memory_available), register_agent ledger agent_type)

/-- A serialized ledger operation (one critical section). -/
inductive LedgerOp where
  | reg (t : String)
  | unreg (t : String)
deriving DecidableEq, Repr

/-- Apply one ledger operation. -/
def apply_op (l : Ledger) : LedgerOp → Ledger
  | .reg t => register_agent l t
  | .unreg t => unregister_agent l t

/-- Apply a sequence of ledger operations in order. -/
def apply_ops (l : Ledger) : List LedgerOp → Ledger
  | [] => l
  | op :: rest => apply_ops (apply_op l op) rest

/-- Number of registrations of a given type in an operation sequence. -/
def reg_count (t : String) : List LedgerOp → ℕ
  | [] => 0
  | .reg u :: rest => (if u = t then 1 else 0) + reg_count t rest
  | .unreg _ :: rest => reg_count t rest

/-- Number of unregistrations of a given type in an operation sequence. -/
def unreg_count (t : String) : List LedgerOp → ℕ
  | [] => 0
  | .unreg u :: rest => (if u = t then 1 else 0) + unreg_count t rest
  | .reg _ :: rest => unreg_count t rest

/-- An operation sequence in which every unregistration matches an
earlier registration of the same type, and at the end every
registration has been matched by exactly one unregistration. -/
def balanced (ops : List LedgerOp) : Prop :=
  (∀ (t : String) (n : ℕ),
    unreg_count t (ops.take n) ≤ reg_count t (ops.take n)) ∧
  (∀ t : String, unreg_count t ops = reg_count t ops)

/-- A burst of serialized `try_spawn_agent` calls (one list entry per
caller, in the order the lock granted the critical section), returning
each caller's result and the final ledger. -/
def run_calls (cfg : ManagerConfig) (mem : Option VirtualMemory) :
    Ledger → List (String × Option ℕ) → List (Bool × SpawnReason) × Ledger
  | ledger, [] => ([], ledger)
  | ledger, (t, est) :: rest =>
    let r := try_spawn_agent cfg mem ledger t est
    let tail := run_calls cfg mem r.2 rest
    (r.1 :: tail.1, tail.2)

/-- Error conditions a unit of work can end with (`ExtractionError`,
`MatchingError`, timeout expiry, and the spec's `ResourceExhausted`,
which corresponds to the unused `MemoryConstraintError` in
`base_agent.py`). -/
inductive AgentError where
  | extraction_error
  | matching_error
  | timeout_exceeded
  | resource_exhausted
deriving DecidableEq, Repr

/-- Observable effect of `AdaptiveAgentTask.before_start`: the value it
returns (or error it raises), the admission rejection it logs (if any),
and the ledger afterwards. -/
structure BeforeStartEffect where
  result : Except AgentError Unit
  logged_rejection : Option SpawnReason
  ledger : Ledger

/-- `AdaptiveAgentTask.before_start`: checks `can_spawn_agent` for the
task's agent type; a rejection is only logged as a warning (the
`MemoryConstraintError` raise is commented out in the source), then the
agent is registered unconditionally and the task proceeds. -/
def before_start (cfg : ManagerConfig) (mem : Option VirtualMemory)
    (ledger : Ledger) (agent_type : String) : BeforeStartEffect :=
  let check := can_spawn_agent cfg mem ledger agent_type none
  { result := .ok ()
    logged_rejection := if check.1 then none else some check.2
    ledger := register_agent ledger agent_type }

/-- Orchestrator-visible mutable state: the shared admission ledger, the
`active_tasks` dict (task id → agent type) and, for observability of the
dispatch decisions, the ordered log of submitted units (the `.delay`
calls). -/
structure OrchState where
  ledger : Ledger
  active_tasks : List (ℕ × String)
  dispatched : List String

/-- Submit a unit of work (`task.delay(...)` followed by
`active_tasks[task.id] = agent_type`). -/
def submit_task (st : OrchState) (id : ℕ) (agent_type : String) : OrchState :=
  { st with
    active_tasks := st.active_tasks ++ [(id, agent_type)]
    dispatched := st.dispatched ++ [agent_type] }

/-- `self.active_tasks.pop(task_id, None)`. -/
def pop_task (st : OrchState) (id : ℕ) : OrchState :=
  { st with active_tasks := st.active_tasks.filter (fun p => p.1 != id) }

/-- The exception-branch cleanup loop that pops every remaining entry of
`active_tasks`. -/
def clear_tasks (st : OrchState) : OrchState := { st with active_tasks := [] }

/-- Fresh orchestrator state. -/
def initial_orch_state : OrchState := ⟨[], [], []⟩

/-- The outcomes the dispatched units of work would produce (payloads
are opaque naturals; collaborator calls are out of scope). -/
structure TaskOutcomes where
  pdf_outcome : Except AgentError ℕ
  excel_outcome : Except AgentError ℕ
  validation_outcome : Except AgentError ℕ
  consolidated_outcome : Except AgentError ℕ

/-- Full lifecycle of one Celery unit of work at its `.get` point:
`before_start` (admission check logged + registration), the main logic
outcome, then `after_return` on success or `on_failure` on failure —
both of which unregister the agent. -/
def run_task (cfg : ManagerConfig) (mem : Option VirtualMemory)
    (agent_type : String) (outcome : Except AgentError ℕ)
    (ledger : Ledger) : Except AgentError ℕ × Ledger :=
  let eff := before_start cfg mem ledger agent_type
  (outcome, unregister_agent eff.ledger agent_type)

/-- The `execution_mode` tag of a returned result. -/
inductive ExecMode where
  | distributed
  | consolidated
deriving DecidableEq, Repr

/-- The per-mode payload of a successful result. -/
inductive ResultPayload where
  | distributed_payload (pdf_result excel_result validation_result : ℕ)
  | consolidated_payload (result : ℕ)
deriving DecidableEq, Repr

/-- A successful orchestrator result: mode tag, payload, and the
attached fresh memory snapshot. -/
structure ProcessResult where
  execution_mode : ExecMode
  payload : ResultPayload
  memory_stats : MemoryStats
deriving DecidableEq, Repr

/-- `AdaptiveAgentOrchestrator._execute_distributed_processing`: submit
the two extraction units, wait on both, pop their tracking entries,
submit the validation unit with their outputs, wait, and build the
distributed-mode result; on any failure, pop every remaining tracking
entry and propagate the error. -/
def execute_distributed (cfg : ManagerConfig) (mem : Option VirtualMemory)
    (out : TaskOutcomes) (st : OrchState) :
    Except AgentError ProcessResult × OrchState :=
  let st1 := submit_task st 1 "pdf_intelligence"
  let st2 := submit_task st1 2 "excel_intelligence"
  match run_task cfg mem "pdf_intelligence" out.pdf_outcome st2.ledger with
  | (.error e, led) => (.error e, clear_tasks { st2 with ledger := led })
  | (.ok pdf_result, led) =>
    match run_task cfg mem "excel_intelligence" out.excel_outcome led with
    | (.error e, led2) => (.error e, clear_tasks { st2 with ledger := led2 })
    | (.ok excel_result, led2) =>
      let st3 := pop_task (pop_task { st2 with ledger := led2 } 1) 2
      let st4 := submit_task st3 3 "validation_intelligence"
      match run_task cfg mem "validation_intelligence" out.validation_outcome
          st4.ledger with
      | (.error e, led3) => (.error e, clear_tasks { st4 with ledger := led3 })
      | (.ok validation_result, led3) =>
        (.ok { execution_mode := .distributed
               payload := .distributed_payload pdf_result excel_result
                 validation_result
               memory_stats := get_current_stats cfg mem },
          pop_task { st4 with ledger := led3 } 3)

/-- `AdaptiveAgentOrchestrator._execute_consolidated_processing`: one
unit performing extraction-then-validation under a single worker
registration. -/
def execute_consolidated (cfg : ManagerConfig) (mem : Option VirtualMemory)
    (out : TaskOutcomes) (st : OrchState) :
    Except AgentError ProcessResult × OrchState :=
  let st1 := submit_task st 4 "consolidated_processing"
  match run_task cfg mem "consolidated_processing" out.consolidated_outcome
      st1.ledger with
  | (.error e, led) => (.error e, clear_tasks { st1 with ledger := led })
  | (.ok result, led) =>
    (.ok { execution_mode := .consolidated
           payload := .consolidated_payload result
           memory_stats := get_current_stats cfg mem },
      pop_task { st1 with ledger := led } 4)

/-- `AdaptiveAgentOrchestrator.process_validation_request`: sample
stats; distributed path for HIGH/MEDIUM tier, consolidated otherwise;
errors propagate unchanged. -/
def process_validation_request (cfg : ManagerConfig)
    (mem : Option VirtualMemory) (out : TaskOutcomes) (st : OrchState) :
    Except AgentError ProcessResult × OrchState :=
  let stats := get_current_stats cfg mem
  if stats.threshold_level = .HIGH ∨ stats.threshold_level = .MEDIUM then
    execute_distributed cfg mem out st
  else
    execute_consolidated cfg mem out st

/-- The fields of `AdaptiveAgentOrchestrator.get_system_status` the
claims refer to (`active_tasks` length is the active worker count). -/
structure SystemStatus where
  memory_stats : MemoryStats
  active_worker_count : ℕ
  task_types : List String
deriving DecidableEq, Repr

/-- `AdaptiveAgentOrchestrator.get_system_status`. -/
def get_system_status (cfg : ManagerConfig) (mem : Option VirtualMemory)
    (st : OrchState) : SystemStatus :=
  { memory_stats := get_current_stats cfg mem
    active_worker_count := st.active_tasks.length
    task_types := st.active_tasks.map Prod.snd }

/-- Concrete manager configuration used by the witnesses
(`max_memory_gb = 8`, `safety_margin = 0.15`, the defaults). -/
def cfg0 : ManagerConfig := ⟨8, 3/20⟩

/-- Concrete OS sample used by the witnesses: 16 GiB total, 8 GiB
available. -/
def mem0 : Option VirtualMemory := some ⟨16 * gib, 8 * gib, 50⟩

/-- Nine concurrent admission requests for the `evaluation` worker type
(ceiling at 8 GiB available is 8). -/
def calls0 : List (String × Option ℕ) := List.replicate 9 ("evaluation", none)

/-- Task outcomes in which every unit succeeds. -/
def out_ok : TaskOutcomes := ⟨.ok 0, .ok 0, .ok 0, .ok 0⟩

/-- Task outcomes for end-to-end scenario C: both extractions succeed,
validation fails with `MatchingError`. -/
def out_val_fail : TaskOutcomes :=
  ⟨.ok 0, .ok 0, .error .matching_error, .ok 0⟩

/-- Claim C6: tier boundaries are inclusive lower bounds: HIGH iff
available ≥ 6 GiB, MEDIUM iff 3 ≤ available < 6, LOW iff
1 ≤ available < 3, CRITICAL otherwise. -/
theorem determine_threshold_boundaries (a : ℚ) :
    (determine_threshold a = .HIGH ↔ 6 ≤ a) ∧
    (determine_threshold a = .MEDIUM ↔ 3 ≤ a ∧ a < 6) ∧
    (determine_threshold a = .LOW ↔ 1 ≤ a ∧ a < 3) ∧
    (determine_threshold a = .CRITICAL ↔ a < 1) := by
  unfold determine_threshold MemoryThreshold.value
  split_ifs with h1 h2 h3 <;>
    refine ⟨?_, ?_, ?_, ?_⟩ <;> constructor <;> intro hh <;>
    simp_all <;> linarith

/-- Claim C7: the recommended worker ceiling is the step function
8/5/3/2/1 of available memory and is monotone non-decreasing. -/
theorem recommended_ceiling_step_and_monotone :
    (∀ a : ℚ, calculate_recommended_agent_count a =
      if 6 ≤ a then 8 else if 4 ≤ a then 5 else if 2 ≤ a then 3
      else if 1 ≤ a then 2 else 1) ∧
    (∀ a1 a2 : ℚ, a1 ≤ a2 →
      calculate_recommended_agent_count a1 ≤
        calculate_recommended_agent_count a2) := by
  constructor
  · intro a
    unfold calculate_recommended_agent_count
    split_ifs with h1 h2 h3 h4 <;> simp_all
  · intro a1 a2 hle
    unfold calculate_recommended_agent_count
    split_ifs <;> linarith

/-- Witness for C7 at a concrete pair of inputs. -/
theorem recommended_ceiling_monotone_witness :
    (1 : ℚ) ≤ 5 ∧
      calculate_recommended_agent_count 1 ≤
        calculate_recommended_agent_count 5 :=
  ⟨by norm_num, recommended_ceiling_step_and_monotone.2 1 5 (by norm_num)⟩

/-- Claim C4: when the OS memory query raises, `get_current_stats` does
not propagate the failure: it returns fallback stats whose tier is LOW or
worse and whose admission flag is false. -/
theorem get_current_stats_fail_safe (cfg : ManagerConfig) :
    ((get_current_stats cfg none).threshold_level = .LOW ∨
      (get_current_stats cfg none).threshold_level = .CRITICAL) ∧
    (get_current_stats cfg none).can_spawn_agents = false :=
  ⟨Or.inl rfl, rfl⟩

/-- Claim C2: `try_spawn_agent` performs exactly the spec's ordered
checks in one critical section — admission flag first, then memory
headroom against the profile-or-override cost, then the worker ceiling —
incrementing the ledger only on acceptance, and returning rejection as a
normal value (the embedded function is total; no exception path exists). -/
theorem try_spawn_agent_refines_try_admit_spec (cfg : ManagerConfig)
    (mem : Option VirtualMemory) (ledger : Ledger) (agent_type : String)
    (estimated_memory_mb : Option ℕ) :
    try_spawn_agent cfg mem ledger agent_type estimated_memory_mb =
      try_admit_spec cfg mem ledger agent_type estimated_memory_mb := by
  simp only [try_spawn_agent, can_spawn_agent, try_admit_spec]
  split_ifs <;> simp_all

/-- Claim C10: an admission check for a worker type that has no
configured profile, without an explicit override, defaults the cost to
256 MB and otherwise behaves exactly as an admission check with that
explicit cost. -/
theorem unknown_type_defaults (cfg : ManagerConfig)
    (mem : Option VirtualMemory) (ledger : Ledger) (agent_type : String)
    (h : AGENT_PROFILES agent_type = none) :
    required_mb agent_type none = 256 ∧
    can_spawn_agent cfg mem ledger agent_type none =
      can_spawn_agent cfg mem ledger agent_type (some 256) := by
  have hr : required_mb agent_type none = 256 := by
    simp [required_mb, required_default, h]
  have hr2 : required_mb agent_type (some 256) = 256 := by
    simp [required_mb]
  exact ⟨hr, by unfold can_spawn_agent; rw [hr, hr2]⟩

/-- Witness for C10 at a concrete unknown agent type. -/
theorem unknown_type_defaults_witness :
    AGENT_PROFILES "mystery_agent" = none ∧
    (required_mb "mystery_agent" none = 256 ∧
      can_spawn_agent ⟨8, 15/100⟩ none [] "mystery_agent" none =
        can_spawn_agent ⟨8, 15/100⟩ none [] "mystery_agent" (some 256)) :=
  ⟨by decide, unknown_type_defaults ⟨8, 15/100⟩ none [] "mystery_agent"
    (by decide)⟩

theorem lget_lset_self (l : Ledger) (t : String) (v : ℤ) :
    lget (lset l t v) t = some v := by
  induction l with
  | nil => simp [lget, lset]
  | cons p rest ih =>
    obtain ⟨k, w⟩ := p
    by_cases h : k = t <;> simp [lget, lset, h, ih]

theorem lget_lset_ne (l : Ledger) (t u : String) (v : ℤ) (h : u ≠ t) :
    lget (lset l t v) u = lget l u := by
  induction l with
  | nil => simp [lget, lset, Ne.symm h]
  | cons p rest ih =>
    obtain ⟨k, w⟩ := p
    by_cases hk : k = t
    · subst hk
      simp [lget, lset, Ne.symm h]
    · by_cases hu : k = u <;> simp [lget, lset, hk, hu, ih, h]

theorem lget_ldel_ne (l : Ledger) (t u : String) (h : u ≠ t) :
    lget (ldel l t) u = lget l u := by
  induction l with
  | nil => simp [ldel]
  | cons p rest ih =>
    obtain ⟨k, w⟩ := p
    by_cases hk : k = t
    · subst hk
      simp [lget, ldel, Ne.symm h]
    · by_cases hu : k = u <;> simp [lget, ldel, hk, hu, ih, h]

theorem ldel_sublist (l : Ledger) (t : String) :
    List.Sublist (ldel l t) l := by
  induction l with
  | nil => simp [ldel]
  | cons p rest ih =>
    obtain ⟨k, w⟩ := p
    by_cases hk : k = t
    · simp [ldel, hk]
    · simpa [ldel, hk] using ih.cons₂ (k, w)

theorem lget_none_iff (l : Ledger) (t : String) :
    lget l t = none ↔ t ∉ keys l := by
  induction l with
  | nil => simp [lget, keys]
  | cons p rest ih =>
    obtain ⟨k, w⟩ := p
    have hc : keys ((k, w) :: rest) = k :: keys rest := rfl
    rw [hc]
    by_cases hk : k = t
    · subst hk
      simp [lget]
    · simp only [lget, if_neg hk, ih, List.mem_cons]
      constructor
      · intro h1 h2
        rcases h2 with h2 | h2
        · exact hk h2.symm
        · exact h1 h2
      · exact fun h1 hm => h1 (Or.inr hm)

theorem lget_mem (l : Ledger) (t : String) (c : ℤ) (h : lget l t = some c) :
    (t, c) ∈ l := by
  induction l with
  | nil => simp [lget] at h
  | cons p rest ih =>
    obtain ⟨k, w⟩ := p
    by_cases hk : k = t
    · subst hk
      simp only [lget, if_pos rfl] at h
      obtain rfl : w = c := by injection h
      exact List.mem_cons_self _ _
    · simp only [lget, if_neg hk] at h
      exact List.mem_cons_of_mem _ (ih h)

theorem lget_ldel_self (l : Ledger) (t : String) (hnd : (keys l).Nodup) :
    lget (ldel l t) t = none := by
  induction l with
  | nil => simp [ldel, lget]
  | cons p rest ih =>
    obtain ⟨k, w⟩ := p
    have hc : keys ((k, w) :: rest) = k :: keys rest := rfl
    rw [hc] at hnd
    have hnd2 := List.Nodup.of_cons hnd
    by_cases hk : k = t
    · subst hk
      simp only [ldel, if_pos rfl]
      exact (lget_none_iff rest k).mpr (List.Nodup.not_mem hnd)
    · simp only [ldel, lget, if_neg hk]
      exact ih hnd2

theorem mem_lset (l : Ledger) (t : String) (v : ℤ) (p : String × ℤ)
    (h : p ∈ lset l t v) : p = (t, v) ∨ p ∈ l := by
  induction l with
  | nil => simp [lset] at h; simp [h]
  | cons q rest ih =>
    obtain ⟨k, w⟩ := q
    by_cases hk : k = t
    · simp only [lset, if_pos hk, List.mem_cons] at h
      rcases h with h | h
      · exact Or.inl h
      · exact Or.inr (List.mem_cons_of_mem _ h)
    · simp only [lset, if_neg hk, List.mem_cons] at h
      rcases h with h | h
      · exact Or.inr (by simp [h])
      · rcases ih h with h2 | h2
        · exact Or.inl h2
        · exact Or.inr (List.mem_cons_of_mem _ h2)

theorem keys_lset (l : Ledger) (t : String) (v : ℤ) :
    keys (lset l t v) =
      if lget l t = none then keys l ++ [t] else keys l := by
  induction l with
  | nil => simp [keys, lset, lget]
  | cons p rest ih =>
    obtain ⟨k, w⟩ := p
    by_cases hk : k = t
    · subst hk
      simp [keys, lset, lget]
    · have hlg : lget ((k, w) :: rest) t = lget rest t := by
        simp [lget, hk]
      have hcons : keys ((k, w) :: lset rest t v) = k :: keys (lset rest t v) :=
        rfl
      have hc2 : keys ((k, w) :: rest) = k :: keys rest := rfl
      simp only [lset, if_neg hk, hcons, ih, hlg, hc2]
      by_cases hr : lget rest t = none <;> simp [hr]

theorem unregister_agent_some (l : Ledger) (t : String) (c : ℤ)
    (h : lget l t = some c) :
    unregister_agent l t =
      if 0 < c then (if c - 1 = 0 then ldel l t else lset l t (c - 1))
      else l := by
  unfold unregister_agent
  rw [h]

theorem unregister_of_none (l : Ledger) (t : String)
    (h : lget l t = none) : unregister_agent l t = l := by
  unfold unregister_agent
  rw [h]

theorem unregister_of_zero (l : Ledger) (t : String)
    (h : lget l t = some 0) : unregister_agent l t = l := by
  rw [unregister_agent_some l t 0 h]
  norm_num

theorem keys_nodup_register (l : Ledger) (t : String)
    (h : (keys l).Nodup) : (keys (register_agent l t)).Nodup := by
  unfold register_agent
  rw [keys_lset]
  split_ifs with hl
  · have hnm : t ∉ keys l := (lget_none_iff l t).mp hl
    simp [List.nodup_append, h, hnm]
  · exact h

theorem keys_nodup_unregister (l : Ledger) (t : String)
    (h : (keys l).Nodup) : (keys (unregister_agent l t)).Nodup := by
  cases hl : lget l t with
  | none => rw [unregister_of_none l t hl]; exact h
  | some c =>
    rw [unregister_agent_some l t c hl]
    split_ifs with hc hz
    · exact List.Nodup.sublist ((ldel_sublist l t).map Prod.fst) h
    · rw [keys_lset]
      simp [hl, h]
    · exact h

theorem all_pos_register (l : Ledger) (t : String) (h : all_pos l) :
    all_pos (register_agent l t) := by
  intro p hp
  unfold register_agent at hp
  rcases mem_lset _ _ _ _ hp with h1 | h1
  · subst h1
    cases hl : lget l t with
    | none => simp [hl]
    | some c =>
      have hcp := h _ (lget_mem l t c hl)
      simp only [hl, Option.getD_some]
      simp at hcp ⊢
      omega
  · exact h _ h1

theorem all_pos_unregister (l : Ledger) (t : String) (h : all_pos l) :
    all_pos (unregister_agent l t) := by
  cases hl : lget l t with
  | none => rw [unregister_of_none l t hl]; exact h
  | some c =>
    rw [unregister_agent_some l t c hl]
    split_ifs with hc hz
    · intro p hp
      exact h _ ((ldel_sublist l t).subset hp)
    · intro p hp
      rcases mem_lset _ _ _ _ hp with h1 | h1
      · subst h1
        simp
        omega
      · exact h _ h1
    · exact h

theorem ledger_wf_apply_op (l : Ledger) (op : LedgerOp) (h : ledger_wf l) :
    ledger_wf (apply_op l op) := by
  cases op with
  | reg t => exact ⟨keys_nodup_register l t h.1, all_pos_register l t h.2⟩
  | unreg t =>
    exact ⟨keys_nodup_unregister l t h.1, all_pos_unregister l t h.2⟩

theorem ledger_wf_apply_ops (ops : List LedgerOp) :
    ∀ l : Ledger, ledger_wf l → ledger_wf (apply_ops l ops) := by
  induction ops with
  | nil => exact fun l h => h
  | cons op rest ih =>
    intro l h
    exact ih _ (ledger_wf_apply_op l op h)

theorem cnt_nonneg (l : Ledger) (t : String) (h : all_pos l) :
    0 ≤ cnt l t := by
  unfold cnt
  cases hl : lget l t with
  | none => simp
  | some c =>
    have hcp := h _ (lget_mem l t c hl)
    simp at hcp ⊢
    omega

theorem cnt_register_self (l : Ledger) (t : String) :
    cnt (register_agent l t) t = cnt l t + 1 := by
  unfold cnt register_agent
  rw [lget_lset_self]
  rfl

theorem cnt_register_ne (l : Ledger) (t u : String) (h : u ≠ t) :
    cnt (register_agent l t) u = cnt l u := by
  unfold cnt register_agent
  rw [lget_lset_ne _ _ _ _ h]

theorem cnt_eq_zero_of_lget (l : Ledger) (t : String)
    (h : lget l t = none) : cnt l t = 0 := by
  unfold cnt
  rw [h]
  rfl

theorem cnt_unregister_self (l : Ledger) (t : String) (c : ℤ)
    (hnd : (keys l).Nodup) (h : lget l t = some c) (hc : 0 < c) :
    cnt (unregister_agent l t) t = c - 1 := by
  rw [unregister_agent_some l t c h, if_pos hc]
  by_cases hz : c - 1 = 0
  · rw [if_pos hz]
    unfold cnt
    rw [lget_ldel_self l t hnd]
    simp
    omega
  · rw [if_neg hz]
    unfold cnt
    rw [lget_lset_self]
    rfl

theorem cnt_unregister_ne (l : Ledger) (t u : String) (h : u ≠ t) :
    cnt (unregister_agent l t) u = cnt l u := by
  cases hl : lget l t with
  | none => rw [unregister_of_none l t hl]
  | some c =>
    rw [unregister_agent_some l t c hl]
    split_ifs with hc hz
    · unfold cnt
      rw [lget_ldel_ne _ _ _ h]
    · unfold cnt
      rw [lget_lset_ne _ _ _ _ h]
    · rfl

theorem apply_ops_cnt (ops : List LedgerOp) :
    ∀ l : Ledger, ledger_wf l →
    (∀ (t : String) (n : ℕ),
      (unreg_count t (ops.take n) : ℤ) ≤
        cnt l t + (reg_count t (ops.take n) : ℤ)) →
    ∀ t : String,
      cnt (apply_ops l ops) t =
        cnt l t + (reg_count t ops : ℤ) - (unreg_count t ops : ℤ) := by
  induction ops with
  | nil =>
    intro l _ _ t
    simp [apply_ops, reg_count, unreg_count]
  | cons op rest ih =>
    intro l hwf hpre t
    cases op with
    | reg u =>
      have hwf2 : ledger_wf (register_agent l u) :=
        ledger_wf_apply_op l (.reg u) hwf
      have hcnt : ∀ s : String, cnt (register_agent l u) s =
          cnt l s + (if u = s then 1 else 0) := by
        intro s
        by_cases hs : u = s
        · subst hs
          simp [cnt_register_self]
        · rw [cnt_register_ne l u s (fun hh => hs hh.symm)]
          simp [hs]
      have hpre2 : ∀ (s : String) (n : ℕ),
          (unreg_count s (rest.take n) : ℤ) ≤
            cnt (register_agent l u) s + (reg_count s (rest.take n) : ℤ) := by
        intro s n
        have h1 := hpre s (n + 1)
        simp only [List.take_succ_cons, unreg_count, reg_count] at h1
        rw [hcnt s]
        by_cases hs : u = s
        · simp only [if_pos hs] at h1 ⊢
          push_cast at h1 ⊢
          omega
        · simp only [if_neg hs] at h1 ⊢
          omega
      have h3 := ih (register_agent l u) hwf2 hpre2 t
      simp only [apply_ops, apply_op] at h3 ⊢
      rw [h3, hcnt t]
      simp only [reg_count, unreg_count]
      by_cases hs : u = t
      · simp only [if_pos hs]
        push_cast
        ring
      · simp only [if_neg hs]
        push_cast
        ring
    | unreg u =>
      have hpos : 1 ≤ cnt l u := by
        have h1 := hpre u 1
        simp only [List.take_succ_cons, List.take_zero, unreg_count,
          reg_count, if_pos rfl] at h1
        push_cast at h1
        omega
      obtain ⟨c, hc⟩ : ∃ c, lget l u = some c := by
        cases hl : lget l u with
        | none =>
          have h0 := cnt_eq_zero_of_lget l u hl
          omega
        | some c => exact ⟨c, rfl⟩
      have hcv : cnt l u = c := by
        unfold cnt
        rw [hc]
        rfl
      have hcpos : 0 < c := by omega
      have hwf2 : ledger_wf (unregister_agent l u) :=
        ledger_wf_apply_op l (.unreg u) hwf
      have hcnt : ∀ s : String, cnt (unregister_agent l u) s =
          cnt l s - (if u = s then 1 else 0) := by
        intro s
        by_cases hs : u = s
        · subst hs
          rw [cnt_unregister_self l u c hwf.1 hc hcpos]
          simp [hcv]
        · rw [cnt_unregister_ne l u s (fun hh => hs hh.symm)]
          simp [hs]
      have hpre2 : ∀ (s : String) (n : ℕ),
          (unreg_count s (rest.take n) : ℤ) ≤
            cnt (unregister_agent l u) s + (reg_count s (rest.take n) : ℤ) := by
        intro s n
        have h1 := hpre s (n + 1)
        simp only [List.take_succ_cons, unreg_count, reg_count] at h1
        rw [hcnt s]
        by_cases hs : u = s
        · simp only [if_pos hs] at h1 ⊢
          push_cast at h1 ⊢
          omega
        · simp only [if_neg hs] at h1 ⊢
          omega
      have h3 := ih (unregister_agent l u) hwf2 hpre2 t
      simp only [apply_ops, apply_op] at h3 ⊢
      rw [h3, hcnt t]
      simp only [reg_count, unreg_count]
      by_cases hs : u = t
      · simp only [if_pos hs]
        push_cast
        ring
      · simp only [if_neg hs]
        push_cast
        ring

theorem eq_nil_of_cnt_zero (l : Ledger) (hpos : all_pos l)
    (h : ∀ t, cnt l t = 0) : l = [] := by
  cases l with
  | nil => rfl
  | cons p rest =>
    obtain ⟨k, v⟩ := p
    have h1 : cnt ((k, v) :: rest) k = v := by
      unfold cnt lget
      simp
    have h2 := hpos (k, v) (by simp)
    have h3 := h k
    simp at h2
    omega

/-- Claim C9: ledger counts never go negative under any operation
sequence; unregistering an unknown or zero-count type is a no-op;
unregistering a type at count one removes its entry; and after a
balanced sequence (every admission matched by exactly one later
unregistration) the ledger is empty. -/
theorem ledger_register_unregister_invariants :
    (∀ (ops : List LedgerOp) (t : String), 0 ≤ cnt (apply_ops [] ops) t) ∧
    (∀ (l : Ledger) (t : String), lget l t = none →
      unregister_agent l t = l) ∧
    (∀ (l : Ledger) (t : String), lget l t = some 0 →
      unregister_agent l t = l) ∧
    (∀ (l : Ledger) (t : String), (keys l).Nodup → lget l t = some 1 →
      lget (unregister_agent l t) t = none) ∧
    (∀ ops : List LedgerOp, balanced ops → apply_ops [] ops = []) := by
  have hwfnil : ledger_wf ([] : Ledger) := ⟨List.nodup_nil, by intro p hp; simp at hp⟩
  refine ⟨?_, ?_, ?_, ?_, ?_⟩
  · intro ops t
    exact cnt_nonneg _ t (ledger_wf_apply_ops ops [] hwfnil).2
  · exact unregister_of_none
  · exact unregister_of_zero
  · intro l t hnd h
    rw [unregister_agent_some l t 1 h]
    norm_num
    exact lget_ldel_self l t hnd
  · intro ops hbal
    have hcnt0 : ∀ t, cnt ([] : Ledger) t = 0 := by
      intro t
      rfl
    have hpre : ∀ (t : String) (n : ℕ),
        (unreg_count t (ops.take n) : ℤ) ≤
          cnt ([] : Ledger) t + (reg_count t (ops.take n) : ℤ) := by
      intro t n
      have h1 := hbal.1 t n
      rw [hcnt0 t]
      omega
    have hfin := apply_ops_cnt ops [] hwfnil hpre
    apply eq_nil_of_cnt_zero _ (ledger_wf_apply_ops ops [] hwfnil).2
    intro t
    rw [hfin t, hcnt0 t, hbal.2 t]
    ring

theorem balanced_example_pair :
    balanced [LedgerOp.reg "pdf_intelligence",
      LedgerOp.unreg "pdf_intelligence"] := by
  constructor
  · intro t n
    match n with
    | 0 => simp [unreg_count, reg_count]
    | 1 =>
      by_cases h : "pdf_intelligence" = t <;>
        simp [unreg_count, reg_count, h]
    | n + 2 =>
      by_cases h : "pdf_intelligence" = t <;>
        simp [unreg_count, reg_count, h, List.take_succ_cons]
  · intro t
    by_cases h : "pdf_intelligence" = t <;>
      simp [unreg_count, reg_count, h]

/-- Witness for C9: a concrete admit/unregister pair empties the ledger. -/
theorem ledger_register_unregister_invariants_witness :
    apply_ops []
      [LedgerOp.reg "pdf_intelligence", LedgerOp.unreg "pdf_intelligence"] =
      [] :=
  ledger_register_unregister_invariants.2.2.2.2 _ balanced_example_pair

theorem ledger_total_register (l : Ledger) (t : String) :
    ledger_total (register_agent l t) = ledger_total l + 1 := by
  induction l with
  | nil => simp [register_agent, ledger_total, lset, lget]
  | cons p rest ih =>
    obtain ⟨k, w⟩ := p
    by_cases hk : k = t
    · subst hk
      simp [register_agent, ledger_total, lset, lget]
      ring
    · have hstep : register_agent ((k, w) :: rest) t =
          (k, w) :: register_agent rest t := by
        simp [register_agent, lset, lget, hk]
      rw [hstep]
      simp only [ledger_total, List.map_cons, List.sum_cons]
      have ih2 : ((register_agent rest t).map Prod.snd).sum =
          (rest.map Prod.snd).sum + 1 := ih
      rw [ih2]
      ring

theorem try_spawn_step (cfg : ManagerConfig) (mem : Option VirtualMemory)
    (l : Ledger) (t : String) (est : Option ℕ)
    (hspawn : (get_current_stats cfg mem).can_spawn_agents = true)
    (hmem : (required_mb t est : ℚ) / 1024 ≤
      (get_current_stats cfg mem).available_gb) :
    (ledger_total l ≥ ((get_current_stats cfg mem).recommended_agent_count : ℤ) →
      try_spawn_agent cfg mem l t est =
        ((false, .limit_reached (ledger_total l)
          (get_current_stats cfg mem).recommended_agent_count), l)) ∧
    (ledger_total l < ((get_current_stats cfg mem).recommended_agent_count : ℤ) →
      try_spawn_agent cfg mem l t est =
        ((true, .memory_available), register_agent l t)) := by
  have hnl : ¬ ((get_current_stats cfg mem).available_gb <
      (required_mb t est : ℚ) / 1024) := not_lt.mpr hmem
  constructor
  · intro h
    simp [try_spawn_agent, can_spawn_agent, hspawn, hnl, h]
  · intro h
    simp [try_spawn_agent, can_spawn_agent, hspawn, hnl, not_le.mpr h]

theorem run_calls_count (cfg : ManagerConfig) (mem : Option VirtualMemory)
    (hspawn : (get_current_stats cfg mem).can_spawn_agents = true) :
    ∀ calls : List (String × Option ℕ),
    (∀ c ∈ calls, ((required_mb c.1 c.2 : ℚ) / 1024) ≤
      (get_current_stats cfg mem).available_gb) →
    ∀ (l : Ledger) (T : ℕ), ledger_total l = (T : ℤ) →
    ((run_calls cfg mem l calls).1.countP (fun r => r.1) =
      min calls.length
        ((get_current_stats cfg mem).recommended_agent_count - T)) ∧
    ((run_calls cfg mem l calls).1.countP
        (fun r => !r.1 && r.2.is_limit_reached) =
      calls.length -
        ((get_current_stats cfg mem).recommended_agent_count - T)) ∧
    (ledger_total (run_calls cfg mem l calls).2 =
      ((max T (min (T + calls.length)
        (get_current_stats cfg mem).recommended_agent_count) : ℕ) : ℤ)) := by
  intro calls
  induction calls with
  | nil =>
    intro _ l T htot
    refine ⟨by simp [run_calls], by simp [run_calls], ?_⟩
    simp only [run_calls, List.length_nil]
    rw [htot]
    push_cast
    omega
  | cons c rest ih =>
    intro hmem l T htot
    obtain ⟨t, est⟩ := c
    have hmem_head := hmem (t, est) (by simp)
    have hmem_rest : ∀ c ∈ rest, ((required_mb c.1 c.2 : ℚ) / 1024) ≤
        (get_current_stats cfg mem).available_gb :=
      fun c hc => hmem c (List.mem_cons_of_mem _ hc)
    have hstep := try_spawn_step cfg mem l t est hspawn hmem_head
    by_cases hTC : (get_current_stats cfg mem).recommended_agent_count ≤ T
    · have hge : ledger_total l ≥
          ((get_current_stats cfg mem).recommended_agent_count : ℤ) := by
        rw [htot]
        omega
      have heq := hstep.1 hge
      have htail := ih hmem_rest l T htot
      simp only [run_calls, heq]
      refine ⟨?_, ?_, ?_⟩
      · rw [List.countP_cons]
        simp only [htail.1]
        simp
        omega
      · rw [List.countP_cons]
        simp only [htail.2.1]
        simp [SpawnReason.is_limit_reached, List.length_cons]
        omega
      · rw [htail.2.2]
        push_cast
        omega
    · have hlt : ledger_total l <
          ((get_current_stats cfg mem).recommended_agent_count : ℤ) := by
        rw [htot]
        omega
      have heq := hstep.2 hlt
      have htot2 : ledger_total (register_agent l t) = ((T + 1 : ℕ) : ℤ) := by
        rw [ledger_total_register, htot]
        push_cast
        ring
      have htail := ih hmem_rest (register_agent l t) (T + 1) htot2
      simp only [run_calls, heq]
      refine ⟨?_, ?_, ?_⟩
      · rw [List.countP_cons]
        simp only [htail.1]
        simp [List.length_cons]
        omega
      · rw [List.countP_cons]
        simp only [htail.2.1]
        simp [SpawnReason.is_limit_reached, List.length_cons]
        omega
      · rw [htail.2.2]
        have hlen : ((t, est) :: rest).length = rest.length + 1 := rfl
        rw [hlen]
        norm_cast
        omega

/-- Claim C5: with memory admission enabled and per-type headroom
sufficient, any serialized interleaving of at least ceiling-many
`try_spawn_agent` calls admits exactly the ceiling, rejects all others
with the limit-reached reason, and the ledger total never exceeds the
ceiling after any prefix of the interleaving. -/
theorem concurrent_admissions_bounded (cfg : ManagerConfig)
    (mem : Option VirtualMemory) (calls : List (String × Option ℕ))
    (hspawn : (get_current_stats cfg mem).can_spawn_agents = true)
    (hmem : ∀ c ∈ calls, ((required_mb c.1 c.2 : ℚ) / 1024) ≤
      (get_current_stats cfg mem).available_gb)
    (hN : (get_current_stats cfg mem).recommended_agent_count ≤
      calls.length) :
    ((run_calls cfg mem [] calls).1.countP (fun r => r.1) =
      (get_current_stats cfg mem).recommended_agent_count) ∧
    ((run_calls cfg mem [] calls).1.countP
        (fun r => !r.1 && r.2.is_limit_reached) =
      calls.length - (get_current_stats cfg mem).recommended_agent_count) ∧
    (∀ n : ℕ, ledger_total (run_calls cfg mem [] (calls.take n)).2 ≤
      ((get_current_stats cfg mem).recommended_agent_count : ℤ)) := by
  have htot0 : ledger_total ([] : Ledger) = ((0 : ℕ) : ℤ) := by
    simp [ledger_total]
  have h := run_calls_count cfg mem hspawn calls hmem [] 0 htot0
  refine ⟨?_, ?_, ?_⟩
  · rw [h.1]
    omega
  · rw [h.2.1]
    omega
  · intro n
    have hmem2 : ∀ c ∈ calls.take n, ((required_mb c.1 c.2 : ℚ) / 1024) ≤
        (get_current_stats cfg mem).available_gb :=
      fun c hc => hmem c (List.take_subset n calls hc)
    have h2 := run_calls_count cfg mem hspawn (calls.take n) hmem2 [] 0 htot0
    rw [h2.2.2]
    push_cast
    omega

theorem stats0_available : (get_current_stats cfg0 mem0).available_gb = 8 := by
  unfold get_current_stats cfg0 mem0 gib
  norm_num

theorem stats0_can_spawn :
    (get_current_stats cfg0 mem0).can_spawn_agents = true := by
  unfold get_current_stats cfg0 mem0 gib
  norm_num

theorem stats0_ceiling :
    (get_current_stats cfg0 mem0).recommended_agent_count = 8 := by
  unfold get_current_stats cfg0 mem0 gib calculate_recommended_agent_count
  norm_num

theorem stats0_tier :
    (get_current_stats cfg0 mem0).threshold_level = .HIGH := by
  unfold get_current_stats cfg0 mem0 gib determine_threshold
    MemoryThreshold.value
  norm_num

theorem calls0_memory_ok : ∀ c ∈ calls0,
    ((required_mb c.1 c.2 : ℚ) / 1024) ≤
      (get_current_stats cfg0 mem0).available_gb := by
  intro c hc
  rw [stats0_available]
  simp only [calls0, List.mem_replicate] at hc
  rw [hc.2]
  have hreq : required_mb "evaluation" none = 128 := by decide
  norm_num [hreq]

theorem calls0_length_ok :
    (get_current_stats cfg0 mem0).recommended_agent_count ≤ calls0.length := by
  rw [stats0_ceiling]
  simp [calls0]

/-- Witness for C5: nine contending admissions at an 8-worker ceiling —
exactly eight succeed and one is rejected with the limit-reached reason. -/
theorem concurrent_admissions_bounded_witness :
    (run_calls cfg0 mem0 [] calls0).1.countP (fun r => r.1) = 8 ∧
    (run_calls cfg0 mem0 [] calls0).1.countP
      (fun r => !r.1 && r.2.is_limit_reached) = 1 := by
  have h := concurrent_admissions_bounded cfg0 mem0 calls0 stats0_can_spawn
    calls0_memory_ok calls0_length_ok
  constructor
  · rw [h.1, stats0_ceiling]
  · rw [h.2.1, stats0_ceiling]
    simp [calls0]

theorem run_task_nil_ledger (cfg : ManagerConfig) (mem : Option VirtualMemory)
    (t : String) (o : Except AgentError ℕ) :
    run_task cfg mem t o [] = (o, []) := by
  simp [run_task, before_start, register_agent, unregister_agent, lset, lget,
    ldel]

theorem execute_distributed_dispatched (cfg : ManagerConfig)
    (mem : Option VirtualMemory) (out : TaskOutcomes) :
    (execute_distributed cfg mem out initial_orch_state).2.dispatched.head? =
      some "pdf_intelligence" ∧
    (execute_distributed cfg mem out initial_orch_state).2.dispatched ≠
      ["consolidated_processing"] ∧
    (∀ r, (execute_distributed cfg mem out initial_orch_state).1 = .ok r →
      r.execution_mode = .distributed) := by
  rcases hp : out.pdf_outcome with e1 | p <;>
  rcases hx : out.excel_outcome with e2 | x <;>
  rcases hv : out.validation_outcome with e3 | v <;>
  simp [execute_distributed, run_task_nil_ledger, submit_task, pop_task,
    clear_tasks, initial_orch_state, hp, hx, hv]

theorem execute_consolidated_dispatched (cfg : ManagerConfig)
    (mem : Option VirtualMemory) (out : TaskOutcomes) :
    (execute_consolidated cfg mem out initial_orch_state).2.dispatched =
      ["consolidated_processing"] ∧
    (∀ r, (execute_consolidated cfg mem out initial_orch_state).1 = .ok r →
      r.execution_mode = .consolidated) := by
  rcases hc : out.consolidated_outcome with e4 | c <;>
  simp [execute_consolidated, run_task_nil_ledger, submit_task, pop_task,
    clear_tasks, initial_orch_state, hc]

/-- Claim C8: the orchestrator takes the distributed dispatch path (two
extraction units then a validation unit) exactly at HIGH/MEDIUM tier and
the consolidated single-unit path exactly at LOW/CRITICAL tier, and any
returned result is tagged with the mode that produced it. -/
theorem strategy_split (cfg : ManagerConfig) (mem : Option VirtualMemory)
    (out : TaskOutcomes) :
    (((get_current_stats cfg mem).threshold_level = .HIGH ∨
        (get_current_stats cfg mem).threshold_level = .MEDIUM) ↔
      (process_validation_request cfg mem out
        initial_orch_state).2.dispatched.head? = some "pdf_intelligence") ∧
    (((get_current_stats cfg mem).threshold_level = .LOW ∨
        (get_current_stats cfg mem).threshold_level = .CRITICAL) ↔
      (process_validation_request cfg mem out
        initial_orch_state).2.dispatched = ["consolidated_processing"]) ∧
    (∀ r, (process_validation_request cfg mem out
        initial_orch_state).1 = .ok r →
      (r.execution_mode = .distributed ↔
        ((get_current_stats cfg mem).threshold_level = .HIGH ∨
          (get_current_stats cfg mem).threshold_level = .MEDIUM))) := by
  by_cases h : (get_current_stats cfg mem).threshold_level = .HIGH ∨
      (get_current_stats cfg mem).threshold_level = .MEDIUM
  · have hpr : process_validation_request cfg mem out initial_orch_state =
        execute_distributed cfg mem out initial_orch_state := by
      simp [process_validation_request, h]
    have hd := execute_distributed_dispatched cfg mem out
    rw [hpr]
    refine ⟨iff_of_true h hd.1, ?_, ?_⟩
    · refine iff_of_false ?_ hd.2.1
      rcases h with h | h <;> rw [h] <;> simp
    · intro r hr
      exact iff_of_true (hd.2.2 r hr) h
  · have hpr : process_validation_request cfg mem out initial_orch_state =
        execute_consolidated cfg mem out initial_orch_state := by
      simp [process_validation_request, h]
    have hlc : (get_current_stats cfg mem).threshold_level = .LOW ∨
        (get_current_stats cfg mem).threshold_level = .CRITICAL := by
      cases htl : (get_current_stats cfg mem).threshold_level <;> simp_all
    have hd := execute_consolidated_dispatched cfg mem out
    rw [hpr]
    refine ⟨?_, iff_of_true hlc hd.1, ?_⟩
    · refine iff_of_false h ?_
      rw [hd.1]
      simp
    · intro r hr
      refine iff_of_false ?_ h
      rw [hd.2 r hr]
      simp

/-- Witness for C8: with 8 GiB available (HIGH tier) the distributed
path is taken — the first dispatched unit is the PDF extraction unit. -/
theorem strategy_split_witness :
    (process_validation_request cfg0 mem0 out_ok
      initial_orch_state).2.dispatched.head? = some "pdf_intelligence" :=
  (strategy_split cfg0 mem0 out_ok).1.mp (Or.inl stats0_tier)

theorem process_state_clean (cfg : ManagerConfig) (mem : Option VirtualMemory)
    (out : TaskOutcomes) :
    (process_validation_request cfg mem out initial_orch_state).2.ledger =
      [] ∧
    (process_validation_request cfg mem out
      initial_orch_state).2.active_tasks = [] := by
  have hsplit : process_validation_request cfg mem out initial_orch_state =
      if (get_current_stats cfg mem).threshold_level = .HIGH ∨
          (get_current_stats cfg mem).threshold_level = .MEDIUM then
        execute_distributed cfg mem out initial_orch_state
      else execute_consolidated cfg mem out initial_orch_state := rfl
  rw [hsplit]
  split_ifs with h <;>
  · rcases hp : out.pdf_outcome with e1 | p <;>
    rcases hx : out.excel_outcome with e2 | x <;>
    rcases hv : out.validation_outcome with e3 | v <;>
    rcases hc : out.consolidated_outcome with e4 | c <;>
    simp [execute_distributed, execute_consolidated, run_task_nil_ledger,
      submit_task, pop_task, clear_tasks, initial_orch_state, hp, hx, hv, hc]

/-- Claim C3: whenever processing fails, the error propagates only with
all worker tracking cleared and every unit's ledger slot released; in
scenario C (both extractions succeed, validation fails with
MatchingError) the error propagates and the reported active worker count
is zero. -/
theorem cleanup_on_failure (cfg : ManagerConfig) (mem : Option VirtualMemory)
    (out : TaskOutcomes) :
    (∀ (e : AgentError) (st2 : OrchState),
      process_validation_request cfg mem out initial_orch_state =
        (.error e, st2) →
      (get_system_status cfg mem st2).active_worker_count = 0 ∧
      st2.ledger = []) ∧
    (∀ p x : ℕ,
      ((get_current_stats cfg mem).threshold_level = .HIGH ∨
        (get_current_stats cfg mem).threshold_level = .MEDIUM) →
      out.pdf_outcome = .ok p → out.excel_outcome = .ok x →
      out.validation_outcome = .error .matching_error →
      (process_validation_request cfg mem out initial_orch_state).1 =
        .error .matching_error ∧
      (get_system_status cfg mem
        (process_validation_request cfg mem out
          initial_orch_state).2).active_worker_count = 0) := by
  have hclean := process_state_clean cfg mem out
  constructor
  · intro e st2 hpe
    have h2 : (process_validation_request cfg mem out initial_orch_state).2 =
        st2 := by
      rw [hpe]
    rw [h2] at hclean
    exact ⟨by simp [get_system_status, hclean.2], hclean.1⟩
  · intro p x h hp hx hv
    have hpr : process_validation_request cfg mem out initial_orch_state =
        execute_distributed cfg mem out initial_orch_state := by
      simp [process_validation_request, h]
    rw [hpr]
    constructor
    · simp [execute_distributed, run_task_nil_ledger, submit_task, pop_task,
        clear_tasks, initial_orch_state, hp, hx, hv]
    · simp [get_system_status, execute_distributed, run_task_nil_ledger,
        submit_task, pop_task, clear_tasks, initial_orch_state, hp, hx, hv]

/-- Witness for C3: scenario C at HIGH tier with concrete outcomes. -/
theorem cleanup_on_failure_witness :
    (process_validation_request cfg0 mem0 out_val_fail
      initial_orch_state).1 = .error .matching_error ∧
    (get_system_status cfg0 mem0
      (process_validation_request cfg0 mem0 out_val_fail
        initial_orch_state).2).active_worker_count = 0 :=
  (cleanup_on_failure cfg0 mem0 out_val_fail).2 0 0 (Or.inl stats0_tier)
    rfl rfl rfl

/-- Counterexample to C1 as stated: at a moment when admission is
rejected (here the OS query fails, so `admission_allowed = false`),
`before_start` does not fail fast: it still returns success and still
registers the unit in the ledger. -/
theorem admission_rejection_not_failfast :
    (can_spawn_agent cfg0 none [] "pdf_intelligence" none).1 = false ∧
    (before_start cfg0 none [] "pdf_intelligence").result = .ok () ∧
    lget (before_start cfg0 none [] "pdf_intelligence").ledger
      "pdf_intelligence" = some 1 := by
  refine ⟨rfl, rfl, ?_⟩
  simp [before_start, register_agent, lset, lget]

/-- Claim C1 amended: each distributed unit checks admission (the
non-reserving `can_spawn_agent`) in `before_start`, but a rejection is
only logged as a warning: the unit always proceeds, returns success, and
registers itself in the ledger unconditionally; no ResourceExhausted
condition is raised and no retry or downgrade occurs. -/
theorem before_start_checks_but_proceeds (cfg : ManagerConfig)
    (mem : Option VirtualMemory) (ledger : Ledger) (agent_type : String) :
    (before_start cfg mem ledger agent_type).result = .ok () ∧
    (before_start cfg mem ledger agent_type).ledger =
      register_agent ledger agent_type ∧
    ((before_start cfg mem ledger agent_type).logged_rejection = none ↔
      (can_spawn_agent cfg mem ledger agent_type none).1 = true) := by
  refine ⟨rfl, rfl, ?_⟩
  unfold before_start
  cases h : (can_spawn_agent cfg mem ledger agent_type none).1 <;> simp [h]
